import Mathlib

/-!
Shallow embedding of the allocation/trade-off engine of the
healthcare-cost-modeler repository.

Part 1 embeds `src/app/config.py` and `src/app/models.py` (the percentage
slider variant, class `CostModel`).  Python floats are modelled as exact
rationals.  Every dictionary the engine mutates (`current_allocations`,
`adjustments`) has, in every reachable state, exactly the key set of the
category registry `COST_CATEGORIES` (both are always rebuilt from
`base_allocations.copy()`), so those dictionaries are modelled as total
functions `Cat -> Rat` over the fixed registry, while a caller-supplied
`driver_id` string is looked up against the registry key set exactly where
the Python code would raise a `KeyError`.

Part 2 embeds `calculate_strategy_costs`, `INTERDEPENDENCY_MATRIX` and
`COMBINATION_EFFECTS` from `src/hospital_cost_model.py` (the strategy
selection variant).  The combination-effect dictionaries list only the
divisions they touch; they are embedded as total functions that are `0` on
the untouched divisions, which multiplies those divisions by
`1 + 0 / 100 = 1`, exactly as not touching them does.
-/

/-- The eight category ids of `COST_CATEGORIES` in `src/app/config.py`,
in registry order. -/
inductive Cat where
  | envelope
  | superstructure
  | foundation
  | plumbing
  | mechanical
  | electrical
  | equipment
  | fees
deriving DecidableEq

/-- The `id` field of each entry of `COST_CATEGORIES`. -/
def catId : Cat → String
  | .envelope => "envelope"
  | .superstructure => "superstructure"
  | .foundation => "foundation"
  | .plumbing => "plumbing"
  | .mechanical => "mechanical"
  | .electrical => "electrical"
  | .equipment => "equipment"
  | .fees => "fees"

/-- Registry order of `COST_CATEGORIES`. -/
def allCats : List Cat :=
  [.envelope, .superstructure, .foundation, .plumbing,
   .mechanical, .electrical, .equipment, .fees]

/-- The `base_percentage` field of each entry of `COST_CATEGORIES`; this
is also `CostModel.base_allocations`, which `__init__` builds from the
registry and which no method ever mutates. -/
def base_percentage : Cat → ℚ
  | .envelope => 15
  | .superstructure => 20
  | .foundation => 10
  | .plumbing => 8
  | .mechanical => 18
  | .electrical => 12
  | .equipment => 7
  | .fees => 10

/-- `TRADE_OFF_RULES` from `src/app/config.py`: for a driver category,
the list of (affected category, multiplier) pairs in source order.  A
category that is not a key of the Python dict maps to `[]`: the
membership test `category_id in TRADE_OFF_RULES` then skips the loop,
which is what folding over an empty rule list does as well.  Every
affected id in the shipped table is a registered category, so affected
ids are embedded as `Cat` directly. -/
def trade_off_rules : Cat → List (Cat × ℚ)
  | .envelope => [(.mechanical, -0.8), (.electrical, -0.3)]
  | .superstructure => [(.foundation, -0.6)]
  | .plumbing => [(.electrical, -0.6), (.mechanical, -0.4)]
  | _ => []

/-- Python exceptions that `CostModel.update_allocation` can raise:
`KeyError` from the dictionary lookup of an unknown `category_id`, and
`ZeroDivisionError` from `factor = 100.0 / total` when the
pre-normalization total is zero. -/
inductive PyError where
  | keyError
  | zeroDivisionError
deriving DecidableEq

/-- The mutable state of a `CostModel` instance.  `base_allocations` is
omitted because it equals the constant `base_percentage` in every
instance. -/
structure CostModel where
  total_project_cost : ℚ
  current_allocations : Cat → ℚ
  adjustments : Cat → ℚ

/-- `CostModel.__init__`: current allocations start at baseline and all
adjustments at zero; the default `total_project_cost` is 50,000,000. -/
def CostModel.init (total_project_cost : ℚ := 50000000) : CostModel :=
  { total_project_cost := total_project_cost
    current_allocations := base_percentage
    adjustments := fun _ => 0 }

/-- Lookup of a caller-supplied id string against the registry key set;
`none` is where the dictionary accesses on lines 14-15 of
`src/app/models.py` raise `KeyError`. -/
def findCat (s : String) : Option Cat :=
  allCats.find? (fun c => catId c = s)

/-- One iteration of the trade-off loop of `update_allocation` (lines
28-31 of `src/app/models.py`): add `adjustment = delta * multiplier / 10`
to both the current allocation and the adjustment of the affected
category. -/
def applyRule (delta : ℚ) (p : (Cat → ℚ) × (Cat → ℚ)) (r : Cat × ℚ) :
    (Cat → ℚ) × (Cat → ℚ) :=
  (fun x => if x = r.1 then p.1 x + delta * r.2 / 10 else p.1 x,
   fun x => if x = r.1 then p.2 x + delta * r.2 / 10 else p.2 x)

/-- Lines 17-31 of `update_allocation`: reset both maps to baseline and
zero, apply the direct change, then, when the driver has trade-off rules
and `delta != 0`, run the trade-off loop.  The pair is
(current allocations, adjustments).  It depends only on the driver and
the new percentage because the code restarts from
`base_allocations.copy()`. -/
def prenormAllocs (c : Cat) (v : ℚ) : (Cat → ℚ) × (Cat → ℚ) :=
  let delta := v - base_percentage c
  let cur0 : Cat → ℚ := fun x => if x = c then v else base_percentage x
  let adj0 : Cat → ℚ := fun x => if x = c then delta else 0
  if trade_off_rules c ≠ [] ∧ delta ≠ 0 then
    (trade_off_rules c).foldl (applyRule delta) (cur0, adj0)
  else
    (cur0, adj0)

/-- The instance state after lines 17-31 of `update_allocation`, before
`_normalize_allocations` runs. -/
def update_prenorm (m : CostModel) (c : Cat) (v : ℚ) : CostModel :=
  { m with
    current_allocations := (prenormAllocs c v).1
    adjustments := (prenormAllocs c v).2 }

/-- `sum(d.values())` for a category map. -/
def sumAlloc (f : Cat → ℚ) : ℚ :=
  (allCats.map f).sum

/-- `CostModel._normalize_allocations`: if the current total differs from
100, scale every allocation by `factor = 100.0 / total`.  When the total
is exactly zero the division raises `ZeroDivisionError` before any
allocation has been rescaled, so the state escapes unchanged.
`adjustments` is never touched here. -/
def normalizeResult (m : CostModel) : CostModel × Option PyError :=
  let total := sumAlloc m.current_allocations
  if total = 100 then (m, none)
  else if total = 0 then (m, some .zeroDivisionError)
  else
    ({ m with
       current_allocations := fun x => m.current_allocations x * (100 / total) },
     none)

/-- `CostModel.update_allocation(category_id, new_percentage)`.  The pair
is the state the instance is left in, together with either the returned
`current_allocations` or the exception raised.  Line 14 reads
`current_allocations[category_id]` first, so an unknown id raises
`KeyError` before any mutation; a zero pre-normalization total raises
`ZeroDivisionError` after the trade-off math has been written back but
before any rescaling. -/
def update_allocation (m : CostModel) (driver_id : String) (v : ℚ) :
    CostModel × Except PyError (Cat → ℚ) :=
  match findCat driver_id with
  | none => (m, .error .keyError)
  | some c =>
    match normalizeResult (update_prenorm m c v) with
    | (m2, none) => (m2, .ok m2.current_allocations)
    | (m2, some e) => (m2, .error e)

/-- `CostModel.reset`. -/
def CostModel.reset (m : CostModel) : CostModel :=
  { m with
    current_allocations := base_percentage
    adjustments := fun _ => 0 }

/-- `CostModel.get_dollar_amounts`; a pure derivation, the Python body
contains no assignment to the instance. -/
def get_dollar_amounts (m : CostModel) : Cat → ℚ :=
  fun c => m.total_project_cost * (m.current_allocations c / 100)

/-- Run a sequence of `update_allocation` calls from a starting state,
stopping at the first raised exception (`none` when some call raised). -/
def run_updates (m : CostModel) : List (String × ℚ) → Option CostModel
  | [] => some m
  | (d, v) :: rest =>
    match update_allocation m d v with
    | (m1, .ok _) => run_updates m1 rest
    | (_, .error _) => none

/-- The three strategy ids of `STRATEGIES` in
`src/hospital_cost_model.py`, in source order. -/
inductive Strat where
  | envelope_mechanical
  | structural_innovation
  | waste_heat_recovery
deriving DecidableEq

/-- Source order of `STRATEGIES`. -/
def stratList : List Strat :=
  [.envelope_mechanical, .structural_innovation, .waste_heat_recovery]

/-- The key string of each entry of `STRATEGIES`. -/
def stratName : Strat → String
  | .envelope_mechanical => "envelope_mechanical"
  | .structural_innovation => "structural_innovation"
  | .waste_heat_recovery => "waste_heat_recovery"

/-- The twelve CSI division ids of `CSI_DIVISIONS` in
`src/hospital_cost_model.py`, in source order. -/
inductive Csi where
  | substructure
  | superstructure
  | enclosure
  | roofing
  | interiors
  | conveying
  | plumbing
  | mechanical
  | fire_protection
  | electrical
  | equipment
  | contractor_fees
deriving DecidableEq

/-- The `base_cost_psf` field of each entry of `CSI_DIVISIONS`. -/
def base_cost_psf : Csi → ℚ
  | .substructure => 18
  | .superstructure => 95
  | .enclosure => 45
  | .roofing => 12
  | .interiors => 85
  | .conveying => 15
  | .plumbing => 25
  | .mechanical => 110
  | .fire_protection => 8
  | .electrical => 65
  | .equipment => 45
  | .contractor_fees => 78

/-- `INTERDEPENDENCY_MATRIX`: percentage change from base cost for each
strategy and division. -/
def interdependency_matrix : Strat → Csi → ℚ
  | .envelope_mechanical, d =>
    match d with
    | .substructure => 0
    | .superstructure => -2
    | .enclosure => 25
    | .roofing => 15
    | .interiors => 0
    | .conveying => 0
    | .plumbing => -5
    | .mechanical => -20
    | .fire_protection => 0
    | .electrical => -10
    | .equipment => 5
    | .contractor_fees => 3
  | .structural_innovation, d =>
    match d with
    | .substructure => 15
    | .superstructure => 20
    | .enclosure => -5
    | .roofing => -8
    | .interiors => -10
    | .conveying => 5
    | .plumbing => -3
    | .mechanical => -8
    | .fire_protection => 2
    | .electrical => -5
    | .equipment => 0
    | .contractor_fees => 5
  | .waste_heat_recovery, d =>
    match d with
    | .substructure => 2
    | .superstructure => 0
    | .enclosure => 5
    | .roofing => 8
    | .interiors => 0
    | .conveying => 0
    | .plumbing => 15
    | .mechanical => 10
    | .fire_protection => 0
    | .electrical => -15
    | .equipment => 20
    | .contractor_fees => 8

/-- `COMBINATION_EFFECTS`: additional percentage adjustments keyed by a
sorted pair of strategy ids.  Pairs absent from the Python dict map to
`none`; divisions absent from a present entry map to `0` (an untouched
division is multiplied by `1 + 0 / 100 = 1`). -/
def combination_effects : Strat × Strat → Option (Csi → ℚ)
  | (.envelope_mechanical, .structural_innovation) =>
    some fun d =>
      match d with
      | .superstructure => -3
      | .mechanical => -5
      | .contractor_fees => -2
      | _ => 0
  | (.envelope_mechanical, .waste_heat_recovery) =>
    some fun d =>
      match d with
      | .mechanical => -8
      | .electrical => -5
      | .equipment => -3
      | _ => 0
  | (.structural_innovation, .waste_heat_recovery) =>
    some fun d =>
      match d with
      | .superstructure => 2
      | .plumbing => -2
      | .mechanical => -3
      | _ => 0
  | _ => none

/-- `combo_key = tuple(sorted([strategy, other_strategy]))`: the two key
strings are sorted lexicographically. -/
def comboSorted (a b : Strat) : Strat × Strat :=
  if stratName a ≤ stratName b then (a, b) else (b, a)

/-- One iteration of the combination-effect loop of
`calculate_strategy_costs` (lines 142-148 of
`src/hospital_cost_model.py`): for an `other_strategy` different from the
strategy under computation whose sorted pair is in
`COMBINATION_EFFECTS`, multiply each division cost by
`1 + effect / 100`. -/
def applyComboStep (s : Strat) (costs : Csi → ℚ) (other : Strat) : Csi → ℚ :=
  if other ≠ s then
    match combination_effects (comboSorted s other) with
    | some eff => fun d => costs d * (1 + eff d / 100)
    | none => costs
  else costs

/-- `calculate_strategy_costs(selected_strategies, building_area)`: the
first component gives the cost dict computed for each of the three
strategies, the second the `"baseline"` entry.  A strategy not in
`selected_strategies` keeps `base_costs`; a selected one gets its primary
effects applied to every division and then the combination-effect loop
over `selected_strategies`, in list order. -/
def calculate_strategy_costs (selected : List Strat) (building_area : ℚ) :
    (Strat → Csi → ℚ) × (Csi → ℚ) :=
  let base_costs : Csi → ℚ := fun d => base_cost_psf d * building_area
  (fun s =>
    if s ∈ selected then
      selected.foldl (applyComboStep s)
        (fun d => base_costs d * (1 + interdependency_matrix s d / 100))
    else base_costs,
   base_costs)

/-- The multiplicative factor a single potential combination partner
contributes to the cost of division `d` in the result computed for
strategy `s`: the factor `1 + effect / 100` when the sorted pair has an
entry in `COMBINATION_EFFECTS`, and `1` otherwise. -/
def comboFactor (s : Strat) (d : Csi) (o : Strat) : ℚ :=
  match combination_effects (comboSorted s o) with
  | some eff => 1 + eff d / 100
  | none => 1

/-- Every string produced by `catId` is found in the registry and maps
back to its category. -/
theorem findCat_catId (c : Cat) : findCat (catId c) = some c := by
  cases c <;> decide

/-- Unfolding of `prenormAllocs` when the driver has trade-off rules and
the delta is nonzero. -/
theorem prenormAllocs_rules (c : Cat) (v : ℚ) (h1 : trade_off_rules c ≠ [])
    (h2 : v - base_percentage c ≠ 0) :
    prenormAllocs c v =
      (trade_off_rules c).foldl (applyRule (v - base_percentage c))
        (fun x => if x = c then v else base_percentage x,
         fun x => if x = c then v - base_percentage c else 0) := by
  simp only [prenormAllocs]
  rw [if_pos ⟨h1, h2⟩]

/-- Unfolding of `prenormAllocs` when the trade-off loop does not run. -/
theorem prenormAllocs_plain (c : Cat) (v : ℚ)
    (h : trade_off_rules c = [] ∨ v - base_percentage c = 0) :
    prenormAllocs c v =
      (fun x => if x = c then v else base_percentage x,
       fun x => if x = c then v - base_percentage c else 0) := by
  simp only [prenormAllocs]
  rw [if_neg]
  rintro ⟨h1, h2⟩
  rcases h with h | h
  · exact h1 h
  · exact h2 h

/-- The trade-off loop preserves the relation between the adjustments map
and the current allocations: whenever the adjustment is the distance of
the allocation from baseline at every category, it stays so, because each
iteration adds the same amount to both maps at the affected category. -/
theorem applyRules_consistent (delta : ℚ) (rules : List (Cat × ℚ)) :
    ∀ p : (Cat → ℚ) × (Cat → ℚ),
      (∀ x, p.2 x = p.1 x - base_percentage x) →
      ∀ x, (rules.foldl (applyRule delta) p).2 x
            = (rules.foldl (applyRule delta) p).1 x - base_percentage x := by
  induction rules with
  | nil => exact fun p h => h
  | cons r t ih =>
    intro p h x
    refine ih (applyRule delta p r) ?_ x
    intro y
    simp only [applyRule]
    by_cases hy : y = r.1
    · subst hy
      rw [if_pos rfl, if_pos rfl, h r.1]
      ring
    · simp [hy, h y]

/-- After the pre-normalization phase the adjustments map is exactly the
pointwise distance of the current allocations from baseline. -/
theorem prenorm_consistent (c : Cat) (v : ℚ) (x : Cat) :
    (prenormAllocs c v).2 x = (prenormAllocs c v).1 x - base_percentage x := by
  by_cases h : trade_off_rules c ≠ [] ∧ v - base_percentage c ≠ 0
  · rw [prenormAllocs_rules c v h.1 h.2]
    refine applyRules_consistent _ _ _ ?_ x
    intro y
    by_cases hy : y = c <;> simp [hy]
  · rw [prenormAllocs_plain c v (by tauto)]
    by_cases hx : x = c <;> simp [hx]

/-- Summing a rescaled allocation map rescales the sum. -/
theorem sumAlloc_scale (f : Cat → ℚ) (k : ℚ) :
    sumAlloc (fun x => f x * k) = sumAlloc f * k := by
  simp only [sumAlloc, allCats, List.map_cons, List.map_nil, List.sum_cons,
    List.sum_nil]
  ring

/-- When `_normalize_allocations` completes without raising, the
resulting allocations sum to exactly 100. -/
theorem normalizeResult_none_sum (m m2 : CostModel)
    (h : normalizeResult m = (m2, none)) :
    sumAlloc m2.current_allocations = 100 := by
  revert h
  simp only [normalizeResult]
  split_ifs with h1 h2
  · intro h
    obtain ⟨rfl, -⟩ := Prod.mk.injEq .. ▸ h
    exact h1
  · intro h
    exact absurd (congrArg Prod.snd h) (by simp)
  · intro h
    obtain ⟨rfl, -⟩ := Prod.mk.injEq .. ▸ h
    show sumAlloc
        (fun x => m.current_allocations x * (100 / sumAlloc m.current_allocations))
        = 100
    rw [sumAlloc_scale, mul_comm, div_mul_cancel₀ _ h2]

/-- `_normalize_allocations` never touches the adjustments map, in any of
its branches. -/
theorem normalizeResult_adjustments (m : CostModel) :
    (normalizeResult m).1.adjustments = m.adjustments := by
  simp only [normalizeResult]
  split_ifs <;> rfl

/-- Unfolding of `update_allocation` for a registered driver id in terms
of `normalizeResult` and `update_prenorm`. -/
theorem update_allocation_some (m : CostModel) (d : String) (v : ℚ) (c : Cat)
    (h : findCat d = some c) :
    update_allocation m d v =
      ((normalizeResult (update_prenorm m c v)).1,
        match (normalizeResult (update_prenorm m c v)).2 with
        | none =>
          .ok (normalizeResult (update_prenorm m c v)).1.current_allocations
        | some e => .error e) := by
  simp only [update_allocation, h]
  rcases hN : normalizeResult (update_prenorm m c v) with ⟨m2, e⟩
  cases e <;> rfl

/-- Every `update_allocation` call that returns leaves allocations that
sum to exactly 100. -/
theorem update_ok_sum (m m1 : CostModel) (d : String) (v : ℚ)
    (r : Cat → ℚ) (h : update_allocation m d v = (m1, .ok r)) :
    sumAlloc m1.current_allocations = 100 := by
  cases hf : findCat d with
  | none =>
    simp [update_allocation, hf] at h
  | some c =>
    rw [update_allocation_some m d v c hf] at h
    rcases hN : normalizeResult (update_prenorm m c v) with ⟨m2, e⟩
    rw [hN] at h
    cases e with
    | none =>
      have h1 : m2 = m1 := congrArg Prod.fst h
      subst h1
      exact normalizeResult_none_sum _ _ hN
    | some e =>
      have h2 : Except.error e = Except.ok r := congrArg Prod.snd h
      exact Except.noConfusion h2

/-- A successful run of a sequence of calls preserves the invariant that
allocations sum to 100. -/
theorem run_updates_sum (calls : List (String × ℚ)) :
    ∀ m m1 : CostModel, sumAlloc m.current_allocations = 100 →
      run_updates m calls = some m1 →
      sumAlloc m1.current_allocations = 100 := by
  induction calls with
  | nil =>
    intro m m1 hm h
    obtain rfl : m = m1 := Option.some.inj h
    exact hm
  | cons call rest ih =>
    intro m m1 hm h
    rcases call with ⟨d, v⟩
    simp only [run_updates] at h
    rcases hu : update_allocation m d v with ⟨mu, exc⟩
    rw [hu] at h
    cases exc with
    | ok r =>
      exact ih mu m1 (update_ok_sum m mu d v r hu) h
    | error e =>
      exact Option.noConfusion h

/-- Closed form of the pre-normalization maps for the Policy-A scenario
`update_allocation("envelope", 25.0)`. -/
theorem prenorm_env25 :
    prenormAllocs .envelope 25 =
      (fun x => match x with
        | .envelope => 25 | .mechanical => 17.2 | .electrical => 11.7
        | x => base_percentage x,
       fun x => match x with
        | .envelope => 10 | .mechanical => -0.8 | .electrical => -0.3
        | _ => 0) := by
  rw [prenormAllocs_rules .envelope 25 (by simp [trade_off_rules])
    (by norm_num [base_percentage])]
  simp only [trade_off_rules, List.foldl, applyRule]
  rw [Prod.mk.injEq]
  refine ⟨?_, ?_⟩ <;> funext x <;> cases x <;>
    (try simp only [reduceCtorEq, reduceIte, if_false, if_true]) <;>
    norm_num [base_percentage]

/-- The pre-normalization total for the Policy-A scenario is 108.9. -/
theorem sum_prenorm_env25 : sumAlloc (prenormAllocs .envelope 25).1 = 1089 / 10 := by
  rw [prenorm_env25]
  norm_num [sumAlloc, allCats, base_percentage]

/-- Closed form of the full call `update_allocation("envelope", 25.0)`
from the initial state: the pre-normalization allocations are rescaled by
`100 / 108.9` and the adjustments are left as computed. -/
theorem upd_env25 :
    update_allocation (CostModel.init 50000000) "envelope" 25 =
      ({ total_project_cost := 50000000
         current_allocations :=
           fun x => (prenormAllocs .envelope 25).1 x * (100 / (1089 / 10))
         adjustments := (prenormAllocs .envelope 25).2 },
       .ok (fun x => (prenormAllocs .envelope 25).1 x * (100 / (1089 / 10)))) := by
  have hf : findCat "envelope" = some Cat.envelope := by decide
  simp only [update_allocation, hf, update_prenorm, normalizeResult, CostModel.init,
    sum_prenorm_env25]
  norm_num

/-- Setting the ruleless driver `foundation` to its own baseline keeps the
total at 100. -/
theorem sum_prenorm_found10 : sumAlloc (prenormAllocs .foundation 10).1 = 100 := by
  rw [prenormAllocs_plain .foundation 10 (Or.inr (by norm_num [base_percentage]))]
  simp only [sumAlloc, allCats, List.map_cons, List.map_nil, List.sum_cons,
    List.sum_nil, reduceCtorEq, reduceIte, if_false, if_true]
  norm_num [base_percentage]

/-- The call `update_allocation("foundation", 10.0)` (a no-op change)
completes without rescaling. -/
theorem upd_found10 :
    update_allocation (CostModel.init 50000000) "foundation" 10 =
      (update_prenorm (CostModel.init 50000000) .foundation 10,
       .ok (update_prenorm (CostModel.init 50000000) .foundation 10).current_allocations) := by
  have hf : findCat "foundation" = some Cat.foundation := by decide
  simp only [update_allocation, hf, update_prenorm, normalizeResult, CostModel.init,
    sum_prenorm_found10]
  norm_num

/-- Raising the ruleless driver `foundation` to 20 lifts the
pre-normalization total to 110. -/
theorem sum_prenorm_found20 : sumAlloc (prenormAllocs .foundation 20).1 = 110 := by
  rw [prenormAllocs_plain .foundation 20 (Or.inl rfl)]
  simp only [sumAlloc, allCats, List.map_cons, List.map_nil, List.sum_cons,
    List.sum_nil, reduceCtorEq, reduceIte, if_false, if_true]
  norm_num [base_percentage]

/-- Closed form of the full call `update_allocation("foundation", 20.0)`
from the initial state: every allocation is rescaled by `100 / 110`. -/
theorem upd_found20 :
    update_allocation (CostModel.init 50000000) "foundation" 20 =
      ({ total_project_cost := 50000000
         current_allocations :=
           fun x => (prenormAllocs .foundation 20).1 x * (100 / 110)
         adjustments := (prenormAllocs .foundation 20).2 },
       .ok (fun x => (prenormAllocs .foundation 20).1 x * (100 / 110))) := by
  have hf : findCat "foundation" = some Cat.foundation := by decide
  simp only [update_allocation, hf, update_prenorm, normalizeResult, CostModel.init,
    sum_prenorm_found20]
  norm_num

/-- Setting the ruleless driver `foundation` to -90 drives the
pre-normalization total to exactly zero. -/
theorem sum_prenorm_fneg90 : sumAlloc (prenormAllocs .foundation (-90)).1 = 0 := by
  rw [prenormAllocs_plain .foundation (-90) (Or.inl rfl)]
  simp only [sumAlloc, allCats, List.map_cons, List.map_nil, List.sum_cons,
    List.sum_nil, reduceCtorEq, reduceIte, if_false, if_true]
  norm_num [base_percentage]

/-- The call `update_allocation("foundation", -90.0)` raises
`ZeroDivisionError` inside `_normalize_allocations`. -/
theorem upd_fneg90 :
    update_allocation (CostModel.init 50000000) "foundation" (-90) =
      (update_prenorm (CostModel.init 50000000) .foundation (-90),
       .error .zeroDivisionError) := by
  have hf : findCat "foundation" = some Cat.foundation := by decide
  simp only [update_allocation, hf, update_prenorm, normalizeResult, CostModel.init,
    sum_prenorm_fneg90]
  norm_num

/-- Sorting a pair with itself gives the pair of itself. -/
theorem comboSorted_self (s : Strat) : comboSorted s s = (s, s) := by
  simp only [comboSorted]
  split <;> rfl

/-- Every strategy is in the source-order strategy list. -/
theorem mem_stratList (s : Strat) : s ∈ stratList := by
  cases s <;> decide

/-- The source-order strategy list has no duplicates. -/
theorem stratList_nodup : stratList.Nodup := by decide

/-- No combination rule pairs a strategy with itself. -/
theorem comboFactor_self (s : Strat) (d : Csi) : comboFactor s d s = 1 := by
  simp only [comboFactor, comboSorted_self]
  cases s <;> rfl

/-- One iteration of the combination-effect loop multiplies each division
cost by the factor of that partner. -/
theorem applyComboStep_eval (s : Strat) (acc : Csi → ℚ) (o : Strat) (d : Csi) :
    applyComboStep s acc o d = acc d * comboFactor s d o := by
  by_cases ho : o = s
  · subst ho
    simp only [applyComboStep]
    rw [if_neg (by simp), comboFactor_self, mul_one]
  · simp only [applyComboStep, comboFactor]
    rw [if_pos ho]
    cases hce : combination_effects (comboSorted s o) with
    | none => simp
    | some eff => rfl

/-- The combination-effect loop over a partner list multiplies the
starting cost by the product of the factors of the partners, in list
order. -/
theorem foldl_combo (s : Strat) (d : Csi) :
    ∀ (l : List Strat) (acc : Csi → ℚ),
      (l.foldl (applyComboStep s) acc) d
        = acc d * (l.map (comboFactor s d)).prod := by
  intro l
  induction l with
  | nil =>
    intro acc
    simp
  | cons o t ih =>
    intro acc
    simp only [List.foldl_cons, List.map_cons, List.prod_cons]
    rw [ih, applyComboStep_eval]
    ring

/-- Dropping factor-one entries: the product of a mapped list equals the
product over the sublist where the map is not forced to be one. -/
theorem prod_map_eq_filter (f : Strat → ℚ) (P : Strat → Bool)
    (h : ∀ o, P o = false → f o = 1) :
    ∀ l : List Strat, (l.map f).prod = ((l.filter P).map f).prod := by
  intro l
  induction l with
  | nil => rfl
  | cons a t ih =>
    cases hPa : P a with
    | true => simp [List.filter_cons, hPa, ih]
    | false => simp [List.filter_cons, hPa, ih, h a hPa]

/-- For a duplicate-free selection, filtering the selection is a
permutation of filtering the canonical strategy list by membership: the
applicable partners are counted exactly once each, independently of the
order of the selection list. -/
theorem filter_perm_strat (selected : List Strat) (hnd : selected.Nodup)
    (P : Strat → Bool) :
    List.Perm (selected.filter P)
      (stratList.filter (fun o => decide (o ∈ selected) && P o)) := by
  apply List.perm_of_nodup_nodup_toFinset_eq (hnd.filter P)
    (stratList_nodup.filter _)
  ext o
  simp only [List.mem_toFinset, List.mem_filter, Bool.and_eq_true,
    decide_eq_true_eq, mem_stratList o, true_and]

/-- Sorted-pair evaluation for the first and second strategy keys. -/
theorem comboSorted_em_si :
    comboSorted .envelope_mechanical .structural_innovation
      = (.envelope_mechanical, .structural_innovation) := by
  simp only [comboSorted, stratName]
  rw [if_pos]
  simp
  decide

/-- Sorted-pair evaluation for the first and third strategy keys. -/
theorem comboSorted_em_whr :
    comboSorted .envelope_mechanical .waste_heat_recovery
      = (.envelope_mechanical, .waste_heat_recovery) := by
  simp only [comboSorted, stratName]
  rw [if_pos]
  simp
  decide

/-- Branch lemma: a total of exactly 100 leaves the state untouched. -/
theorem normalizeResult_eq100 (m : CostModel)
    (h : sumAlloc m.current_allocations = 100) :
    normalizeResult m = (m, none) := by
  simp only [normalizeResult]
  rw [if_pos h]

/-- Branch lemma: a total of exactly zero raises `ZeroDivisionError` and
leaves the state untouched. -/
theorem normalizeResult_zero (m : CostModel)
    (h1 : sumAlloc m.current_allocations ≠ 100)
    (h0 : sumAlloc m.current_allocations = 0) :
    normalizeResult m = (m, some .zeroDivisionError) := by
  simp only [normalizeResult]
  rw [if_neg h1, if_pos h0]

/-- Branch lemma: any other total rescales every allocation by
`100 / total`. -/
theorem normalizeResult_scale (m : CostModel)
    (h1 : sumAlloc m.current_allocations ≠ 100)
    (h0 : sumAlloc m.current_allocations ≠ 0) :
    normalizeResult m =
      ({ m with
         current_allocations :=
           fun x => m.current_allocations x * (100 / sumAlloc m.current_allocations) },
       none) := by
  simp only [normalizeResult]
  rw [if_neg h1, if_neg h0]

/-- Claim C1, conservation: after every successful `update_allocation`
call in any sequence of calls started from a freshly constructed
`CostModel`, the current allocations sum to the sum of the baseline
values, which is 100. -/
theorem claim_C1_conservation (t : ℚ) (calls : List (String × ℚ))
    (m1 : CostModel) (h : run_updates (CostModel.init t) calls = some m1) :
    sumAlloc m1.current_allocations = sumAlloc base_percentage
      ∧ sumAlloc base_percentage = 100 := by
  have hbase : sumAlloc base_percentage = 100 := by
    norm_num [sumAlloc, allCats, base_percentage]
  have hinit : sumAlloc (CostModel.init t).current_allocations = 100 := hbase
  exact ⟨(run_updates_sum calls _ m1 hinit h).trans hbase.symm, hbase⟩

/-- Witness for claim C1 at a concrete one-call sequence. -/
theorem claim_C1_conservation_witness :
    run_updates (CostModel.init 50000000) [("foundation", 10)]
        = some (update_prenorm (CostModel.init 50000000) .foundation 10)
      ∧ (sumAlloc (update_prenorm (CostModel.init 50000000) .foundation
            10).current_allocations = sumAlloc base_percentage
        ∧ sumAlloc base_percentage = 100) := by
  have hrun : run_updates (CostModel.init 50000000) [("foundation", 10)]
      = some (update_prenorm (CostModel.init 50000000) .foundation 10) := by
    simp only [run_updates]
    rw [upd_found10]
  exact ⟨hrun, claim_C1_conservation 50000000 _ _ hrun⟩

/-- Claim C2 counterexample: after `update_allocation("envelope", 25.0)`
the adjustment of the driver is 10, while its current allocation minus
baseline is `25 * (100 / 108.9) - 15`, which is not 10: renormalization
rescales `current_allocations` but never updates `adjustments`. -/
theorem claim_C2_counterexample :
    ¬ ((update_allocation (CostModel.init 50000000) "envelope"
          25).1.adjustments .envelope
        = (update_allocation (CostModel.init 50000000) "envelope"
            25).1.current_allocations .envelope - base_percentage .envelope) := by
  rw [upd_env25]
  simp only [prenorm_env25]
  norm_num [base_percentage]

/-- Claim C2 amended: the adjustment identity
`adjustments[c] = current_allocations[c] - baseline[c]` holds for the
pre-normalization state of every `update_allocation` call and after every
`reset`; after renormalization it can fail because only
`current_allocations` is rescaled. -/
theorem claim_C2_amended (m : CostModel) (c : Cat) (v : ℚ) (x : Cat) :
    (update_prenorm m c v).adjustments x
        = (update_prenorm m c v).current_allocations x - base_percentage x
      ∧ (CostModel.reset m).adjustments x
        = (CostModel.reset m).current_allocations x - base_percentage x := by
  refine ⟨prenorm_consistent c v x, ?_⟩
  simp [CostModel.reset]

/-- Claim C3 counterexample: `update_allocation("foundation", -90.0)`
does not complete; it raises `ZeroDivisionError`, because the
pre-normalization allocations sum to exactly zero. -/
theorem claim_C3_counterexample :
    (update_allocation (CostModel.init 50000000) "foundation" (-90)).2
      = Except.error PyError.zeroDivisionError := by
  rw [upd_fneg90]

/-- Claim C3 amended: for every registered driver and every new value
whose pre-normalization allocations have a nonzero sum, the call
completes without raising and returns the normalized allocations. -/
theorem claim_C3_amended (m : CostModel) (c : Cat) (v : ℚ)
    (h : sumAlloc (prenormAllocs c v).1 ≠ 0) :
    (update_allocation m (catId c) v).2
      = Except.ok ((update_allocation m (catId c) v).1.current_allocations) := by
  rw [update_allocation_some m (catId c) v c (findCat_catId c)]
  by_cases h100 : sumAlloc (prenormAllocs c v).1 = 100
  · rw [normalizeResult_eq100 (update_prenorm m c v) h100]
  · rw [normalizeResult_scale (update_prenorm m c v) h100 h]

/-- Witness for the amended claim C3 at the Policy-A scenario input. -/
theorem claim_C3_amended_witness :
    sumAlloc (prenormAllocs .envelope 25).1 ≠ 0
      ∧ (update_allocation (CostModel.init 50000000) (catId .envelope) 25).2
          = Except.ok ((update_allocation (CostModel.init 50000000)
              (catId .envelope) 25).1.current_allocations) := by
  have h : sumAlloc (prenormAllocs .envelope 25).1 ≠ 0 := by
    rw [sum_prenorm_env25]
    norm_num
  exact ⟨h, claim_C3_amended _ _ _ h⟩

/-- Claim C4, concrete Policy-A scenario: before renormalization,
envelope is 25, mechanical 17.2, electrical 11.7 and the five other
categories sit at baseline; the full call returns its current
allocations, and they sum to exactly 100. -/
theorem claim_C4_policyA_scenario :
    (update_prenorm (CostModel.init 50000000) .envelope
        25).current_allocations .envelope = 25
  ∧ (update_prenorm (CostModel.init 50000000) .envelope
        25).current_allocations .mechanical = 17.2
  ∧ (update_prenorm (CostModel.init 50000000) .envelope
        25).current_allocations .electrical = 11.7
  ∧ (update_prenorm (CostModel.init 50000000) .envelope
        25).current_allocations .superstructure = base_percentage .superstructure
  ∧ (update_prenorm (CostModel.init 50000000) .envelope
        25).current_allocations .foundation = base_percentage .foundation
  ∧ (update_prenorm (CostModel.init 50000000) .envelope
        25).current_allocations .plumbing = base_percentage .plumbing
  ∧ (update_prenorm (CostModel.init 50000000) .envelope
        25).current_allocations .equipment = base_percentage .equipment
  ∧ (update_prenorm (CostModel.init 50000000) .envelope
        25).current_allocations .fees = base_percentage .fees
  ∧ (update_allocation (CostModel.init 50000000) "envelope" 25).2
      = Except.ok ((update_allocation (CostModel.init 50000000) "envelope"
          25).1.current_allocations)
  ∧ sumAlloc ((update_allocation (CostModel.init 50000000) "envelope"
      25).1.current_allocations) = 100 := by
  refine ⟨?_, ?_, ?_, ?_, ?_, ?_, ?_, ?_, ?_, ?_⟩
  · simp only [update_prenorm, prenorm_env25]
  · simp only [update_prenorm, prenorm_env25]
  · simp only [update_prenorm, prenorm_env25]
  · simp only [update_prenorm, prenorm_env25]
  · simp only [update_prenorm, prenorm_env25]
  · simp only [update_prenorm, prenorm_env25]
  · simp only [update_prenorm, prenorm_env25]
  · simp only [update_prenorm, prenorm_env25]
  · rw [upd_env25]
  · rw [upd_env25]
    show sumAlloc
        (fun x => (prenormAllocs .envelope 25).1 x * (100 / (1089 / 10))) = 100
    rw [sumAlloc_scale, sum_prenorm_env25]
    norm_num

/-- Claim C5 counterexample: `foundation` has no trade-off rules, yet
after `update_allocation("foundation", 20.0)` the envelope allocation is
`15 * (100 / 110)`, not its baseline 15, because renormalization rescales
every category. -/
theorem claim_C5_counterexample :
    ¬ ((update_allocation (CostModel.init 50000000) "foundation"
          20).1.current_allocations .envelope = base_percentage .envelope) := by
  rw [upd_found20]
  show ¬ ((prenormAllocs .foundation 20).1 .envelope * (100 / 110)
      = base_percentage .envelope)
  rw [prenormAllocs_plain .foundation 20 (Or.inl rfl)]
  simp only [reduceCtorEq, reduceIte, if_false, if_true]
  norm_num [base_percentage]

/-- Claim C5 amended: for a driver with no trade-off rules, before
renormalization only the driver differs from baseline and every other
adjustment is zero; after the full call every other adjustment is still
zero, while the other allocations are the baseline values rescaled by the
common renormalization factor. -/
theorem claim_C5_amended (m : CostModel) (c : Cat) (v : ℚ) (x : Cat)
    (hrules : trade_off_rules c = []) (hx : x ≠ c) :
    (update_prenorm m c v).current_allocations x = base_percentage x
      ∧ (update_prenorm m c v).adjustments x = 0
      ∧ (update_allocation m (catId c) v).1.adjustments x = 0 := by
  have hpre := prenormAllocs_plain c v (Or.inl hrules)
  have h1 : (prenormAllocs c v).1 x = base_percentage x := by
    rw [hpre]
    exact if_neg hx
  have h2 : (prenormAllocs c v).2 x = 0 := by
    rw [hpre]
    exact if_neg hx
  refine ⟨h1, h2, ?_⟩
  rw [update_allocation_some m (catId c) v c (findCat_catId c)]
  show (normalizeResult (update_prenorm m c v)).1.adjustments x = 0
  rw [normalizeResult_adjustments]
  exact h2

/-- Witness for the amended claim C5 at a concrete ruleless driver. -/
theorem claim_C5_amended_witness :
    trade_off_rules .foundation = [] ∧ Cat.envelope ≠ Cat.foundation
      ∧ ((update_prenorm (CostModel.init 50000000) .foundation
            20).current_allocations .envelope = base_percentage .envelope
        ∧ (update_prenorm (CostModel.init 50000000) .foundation
            20).adjustments .envelope = 0
        ∧ (update_allocation (CostModel.init 50000000) (catId .foundation)
            20).1.adjustments .envelope = 0) :=
  ⟨rfl, by decide,
    claim_C5_amended (CostModel.init 50000000) .foundation 20 .envelope rfl
      (by decide)⟩

/-- Claim C7, fail-fast with atomicity: for an unregistered driver id the
call raises `KeyError` (it is not silently ignored) and the state it
leaves behind is exactly the state before the call. -/
theorem claim_C7_unknown_id (m : CostModel) (d : String) (v : ℚ)
    (h : findCat d = none) :
    update_allocation m d v = (m, Except.error PyError.keyError) := by
  simp only [update_allocation, h]

/-- Witness for claim C7 at a concrete unknown id. -/
theorem claim_C7_unknown_id_witness :
    findCat "atrium" = none
      ∧ update_allocation (CostModel.init 50000000) "atrium" 42
          = (CostModel.init 50000000, Except.error PyError.keyError) :=
  ⟨by decide, claim_C7_unknown_id (CostModel.init 50000000) "atrium" 42
    (by decide)⟩

/-- Claim C8, reset idempotence: resetting twice equals resetting once,
the reset state is the freshly constructed state with the same total
project cost (allocations at baseline, adjustments at zero), and reset is
a total function, so it never fails. -/
theorem claim_C8_reset_idempotent (m : CostModel) (t : ℚ) :
    CostModel.reset (CostModel.reset m) = CostModel.reset m
      ∧ CostModel.reset m = CostModel.init m.total_project_cost
      ∧ CostModel.reset (CostModel.init t) = CostModel.init t :=
  ⟨rfl, rfl, rfl⟩

/-- Claim C9, currency round-trip: with a nonzero total project cost,
the dollar amount of a category divided by the total and scaled by 100 is
exactly the current percentage allocation; `get_dollar_amounts` is
embedded as a pure function because its Python body performs no
mutation. -/
theorem claim_C9_currency_roundtrip (m : CostModel) (c : Cat)
    (h : m.total_project_cost ≠ 0) :
    get_dollar_amounts m c / m.total_project_cost * 100
      = m.current_allocations c := by
  simp only [get_dollar_amounts]
  field_simp
  ring

/-- Witness for claim C9 at the initial state. -/
theorem claim_C9_currency_roundtrip_witness :
    (CostModel.init 50000000).total_project_cost ≠ 0
      ∧ get_dollar_amounts (CostModel.init 50000000) .envelope
          / (CostModel.init 50000000).total_project_cost * 100
          = (CostModel.init 50000000).current_allocations .envelope := by
  have h : (CostModel.init 50000000).total_project_cost ≠ 0 := by
    norm_num [CostModel.init]
  exact ⟨h, claim_C9_currency_roundtrip (CostModel.init 50000000) .envelope h⟩

/-- Claim C10, prior-state independence: two instances with the same
total project cost but arbitrary different current allocations and
adjustments produce identical allocations, identical adjustments and the
same returned value for the same registered driver and new value, because
`update_allocation` rebuilds both maps from the constant baseline. -/
theorem claim_C10_prior_state_independence (m1 m2 : CostModel) (d : String)
    (v : ℚ) (c : Cat) (htot : m1.total_project_cost = m2.total_project_cost)
    (h : findCat d = some c) :
    (update_allocation m1 d v).1.current_allocations
        = (update_allocation m2 d v).1.current_allocations
      ∧ (update_allocation m1 d v).1.adjustments
          = (update_allocation m2 d v).1.adjustments
      ∧ (update_allocation m1 d v).2 = (update_allocation m2 d v).2 := by
  rw [update_allocation_some m1 d v c h, update_allocation_some m2 d v c h]
  by_cases h100 : sumAlloc (prenormAllocs c v).1 = 100
  · rw [normalizeResult_eq100 (update_prenorm m1 c v) h100,
      normalizeResult_eq100 (update_prenorm m2 c v) h100]
    exact ⟨rfl, rfl, rfl⟩
  · by_cases h0 : sumAlloc (prenormAllocs c v).1 = 0
    · rw [normalizeResult_zero (update_prenorm m1 c v) h100 h0,
        normalizeResult_zero (update_prenorm m2 c v) h100 h0]
      exact ⟨rfl, rfl, rfl⟩
    · rw [normalizeResult_scale (update_prenorm m1 c v) h100 h0,
        normalizeResult_scale (update_prenorm m2 c v) h100 h0]
      exact ⟨rfl, rfl, rfl⟩

/-- Witness for claim C10: the initial state against a state with
scrambled allocations and adjustments but the same total. -/
theorem claim_C10_prior_state_independence_witness :
    (CostModel.init 50000000).total_project_cost
        = (CostModel.mk 50000000 (fun _ => 1) (fun _ => 2)).total_project_cost
      ∧ findCat "envelope" = some Cat.envelope
      ∧ ((update_allocation (CostModel.init 50000000) "envelope"
            25).1.current_allocations
          = (update_allocation (CostModel.mk 50000000 (fun _ => 1) (fun _ => 2))
              "envelope" 25).1.current_allocations
        ∧ (update_allocation (CostModel.init 50000000) "envelope"
              25).1.adjustments
            = (update_allocation (CostModel.mk 50000000 (fun _ => 1)
                (fun _ => 2)) "envelope" 25).1.adjustments
        ∧ (update_allocation (CostModel.init 50000000) "envelope" 25).2
            = (update_allocation (CostModel.mk 50000000 (fun _ => 1)
                (fun _ => 2)) "envelope" 25).2) :=
  ⟨rfl, by decide,
    claim_C10_prior_state_independence (CostModel.init 50000000)
      (CostModel.mk 50000000 (fun _ => 1) (fun _ => 2)) "envelope" 25
      Cat.envelope rfl (by decide)⟩

/-- Claim C6 amended, combination-effect semantics: in the result
computed for strategy `s`, a combination rule contributes, as exactly one
multiplicative factor `1 + effect / 100`, if and only if `s` is selected
and the other strategy of its pair is also selected; the product runs
over the canonical strategy list, so the result is independent of the
ordering of a duplicate-free `selected_strategies`. -/
theorem claim_C6_combination_semantics (selected : List Strat) (area : ℚ)
    (s : Strat) (d : Csi) (hnd : selected.Nodup) :
    (calculate_strategy_costs selected area).1 s d =
      base_cost_psf d * area *
        (if s ∈ selected then
          (1 + interdependency_matrix s d / 100) *
            ((stratList.filter (fun o =>
                decide (o ∈ selected) && (decide (o ≠ s) &&
                  (combination_effects (comboSorted s o)).isSome))).map
              (comboFactor s d)).prod
         else 1) := by
  simp only [calculate_strategy_costs]
  by_cases hs : s ∈ selected
  · rw [if_pos hs, if_pos hs, foldl_combo]
    have hdrop : (selected.map (comboFactor s d)).prod
        = ((selected.filter (fun o => decide (o ≠ s) &&
            (combination_effects (comboSorted s o)).isSome)).map
            (comboFactor s d)).prod := by
      apply prod_map_eq_filter
      intro o hPo
      by_cases ho : o = s
      · subst ho
        exact comboFactor_self o d
      · simp [ho] at hPo
        cases hce : combination_effects (comboSorted s o) with
        | none => simp [comboFactor, hce]
        | some eff => rw [hce] at hPo; exact Option.noConfusion hPo
    rw [hdrop]
    rw [((filter_perm_strat selected hnd (fun o => decide (o ≠ s) &&
      (combination_effects (comboSorted s o)).isSome)).map
        (comboFactor s d)).prod_eq]
    ring
  · rw [if_neg hs, if_neg hs, mul_one]

/-- Claim C6 counterexample to additivity: with all three strategies
selected, the mechanical cost computed for envelope_mechanical is
`27.5M * 0.8 * 0.95 * 0.92 = 19,228,000`; the two applicable combination
effects (-5 and -8) compound multiplicatively, which differs from adding
the percentages to the primary effect and from adding the two combination
percentages on top of the primary factor. -/
theorem claim_C6_counterexample :
    (calculate_strategy_costs stratList 250000).1 .envelope_mechanical
        .mechanical = 19228000
      ∧ (calculate_strategy_costs stratList 250000).1 .envelope_mechanical
          .mechanical
          ≠ base_cost_psf .mechanical * 250000 * (1 + (-20 + -5 + -8) / 100)
      ∧ (calculate_strategy_costs stratList 250000).1 .envelope_mechanical
          .mechanical
          ≠ base_cost_psf .mechanical * 250000 * (1 + (-20 : ℚ) / 100)
              * (1 + (-5 + -8) / 100) := by
  have hsi : comboFactor .envelope_mechanical .mechanical
      .structural_innovation = 1 + (-5 : ℚ) / 100 := by
    simp only [comboFactor, comboSorted_em_si, combination_effects]
  have hwhr : comboFactor .envelope_mechanical .mechanical
      .waste_heat_recovery = 1 + (-8 : ℚ) / 100 := by
    simp only [comboFactor, comboSorted_em_whr, combination_effects]
  have hval : (calculate_strategy_costs stratList 250000).1
      .envelope_mechanical .mechanical = 19228000 := by
    have hmem : Strat.envelope_mechanical ∈ stratList := by decide
    simp only [calculate_strategy_costs]
    rw [if_pos hmem, foldl_combo]
    simp only [stratList, List.map_cons, List.map_nil, List.prod_cons,
      List.prod_nil, comboFactor_self, hsi, hwhr]
    norm_num [base_cost_psf, interdependency_matrix]
  refine ⟨hval, ?_, ?_⟩
  · rw [hval]
    norm_num [base_cost_psf]
  · rw [hval]
    norm_num [base_cost_psf]

/-- Witness for the amended claim C6 with two of the three strategies
selected. -/
theorem claim_C6_combination_semantics_witness :
    List.Nodup [Strat.envelope_mechanical, Strat.waste_heat_recovery]
      ∧ (calculate_strategy_costs
            [Strat.envelope_mechanical, Strat.waste_heat_recovery] 250000).1
            .envelope_mechanical .mechanical
          = base_cost_psf .mechanical * 250000 *
              (if Strat.envelope_mechanical
                  ∈ [Strat.envelope_mechanical, Strat.waste_heat_recovery] then
                (1 + interdependency_matrix .envelope_mechanical
                    .mechanical / 100) *
                  ((stratList.filter (fun o =>
                      decide (o ∈ [Strat.envelope_mechanical,
                          Strat.waste_heat_recovery]) &&
                        (decide (o ≠ Strat.envelope_mechanical) &&
                          (combination_effects
                            (comboSorted Strat.envelope_mechanical
                              o)).isSome))).map
                    (comboFactor Strat.envelope_mechanical .mechanical)).prod
               else 1) :=
  ⟨by decide,
    claim_C6_combination_semantics
      [Strat.envelope_mechanical, Strat.waste_heat_recovery] 250000
      Strat.envelope_mechanical Csi.mechanical (by decide)⟩
